import Mathlib

/-!
Verification of the intent-routing and timezone-aware day-boundary engine of a
conversational nutrition-logging bot, shallowly embedded from its Python
sources (`timezone_utils.py`, `ai_service.py`, `database.py`, `handlers.py`).

Modelling conventions:
* a time instant is its number of minutes since the Unix epoch (`Int`);
* a timezone is a fixed UTC offset in minutes, drawn from a fragment of the
  IANA database (DST transitions are outside the scope of every claim);
* a fallible Python call returns `Option` (`none` = the call raises);
* external effects (the wall clock, the model backend's reply) are explicit
  arguments, and the per-user conversation memory is passed as explicit state.
-/

namespace NutritionBot

/-! ## Civil calendar arithmetic (the `datetime` library fragment used) -/

/-- Day number (days since 1970-01-01) of a civil date `y-m-d`, the standard
`days_from_civil` algorithm underlying `datetime.date`. -/
def daysFromCivil (y m d : Int) : Int :=
  let y' := if m ≤ 2 then y - 1 else y
  let era := (if 0 ≤ y' then y' else y' - 399).ediv 400
  let yoe := y' - era * 400
  let doy := (153 * (m + (if 2 < m then -3 else 9)) + 2).ediv 5 + d - 1
  let doe := yoe * 365 + yoe.ediv 4 - yoe.ediv 100 + doy
  era * 146097 + doe - 719468

/-- Civil date `(y, m, d)` of a day number, the standard `civil_from_days`
algorithm underlying `datetime.date`. -/
def civilFromDays (z0 : Int) : Int × Int × Int :=
  let z := z0 + 719468
  let era := (if 0 ≤ z then z else z - 146096).ediv 146097
  let doe := z - era * 146097
  let yoe := (doe - doe.ediv 1460 + doe.ediv 36524 - doe.ediv 146096).ediv 365
  let y := yoe + era * 400
  let doy := doe - (365 * yoe + yoe.ediv 4 - yoe.ediv 100)
  let mp := (5 * doy + 2).ediv 153
  let d := doy - (153 * mp + 2).ediv 5 + 1
  let m := mp + (if mp < 10 then 3 else -9)
  (y + (if m ≤ 2 then 1 else 0), m, d)

/-- Decimal digit character. -/
def digitChar (n : Nat) : Char := Char.ofNat (48 + n % 10)

/-- Decimal digits of a natural number, fuel-indexed accumulator recursion. -/
def natToStrAux : Nat → Nat → List Char → List Char
  | 0, _, acc => acc
  | fuel + 1, n, acc =>
    if n < 10 then digitChar n :: acc
    else natToStrAux fuel (n / 10) (digitChar (n % 10) :: acc)

/-- Decimal rendering of a natural number. -/
def natToStr (n : Nat) : String := String.mk (natToStrAux (n + 1) n [])

/-- Zero-padded decimal rendering, as `strftime` field formatting does. -/
def padNum (width n : Nat) : String :=
  let s := natToStr n
  String.mk (List.replicate (width - s.length) '0') ++ s

/-- Embeds `strftime('%Y-%m-%d')` applied to the civil date of day number `z`
(years 1..9999, which covers every claim). -/
def formatDate (z : Int) : String :=
  match civilFromDays z with
  | (y, m, d) => padNum 4 y.toNat ++ "-" ++ padNum 2 m.toNat ++ "-" ++ padNum 2 d.toNat

/-- Calendar day of an instant given in local minutes (Lean's `/` on `Int`
is Euclidean division, which agrees with Python's floor division for the
positive divisors used here). -/
def dayOf (t : Int) : Int := t / 1440

/-- Embeds `datetime.hour` of an instant given in local minutes. -/
def hourOf (t : Int) : Int := (t % 1440) / 60

/-! ## The `pytz` fragment -/

/-- Fragment of the IANA database used through `pytz.timezone`, as fixed UTC
offsets in minutes; `none` models the `UnknownTimeZoneError` raised on an
unknown identifier.  DST is ignored, as every claim allows. -/
def pytzTimezone : String → Option Int
  | "UTC" => some 0
  | "Europe/London" => some 0
  | "Europe/Moscow" => some 180
  | "Asia/Dubai" => some 240
  | "Asia/Almaty" => some 300
  | "Asia/Tokyo" => some 540
  | "America/New_York" => some (-300)
  | _ => none

/-- Python `str.lower` on one character, restricted to the ASCII plus Cyrillic
letters that the source's tables and the claims use. -/
def pyLowerChar (c : Char) : Char :=
  if 65 ≤ c.toNat ∧ c.toNat ≤ 90 then Char.ofNat (c.toNat + 32)
  else if 0x410 ≤ c.toNat ∧ c.toNat ≤ 0x42F then Char.ofNat (c.toNat + 32)
  else if c.toNat = 0x401 then Char.ofNat 0x451
  else c

/-- Python `str.lower` (on the character range above). -/
def pyLower (s : String) : String := String.mk (s.data.map pyLowerChar)

/-- Does `needle` start `hay`? -/
def listStarts : List Char → List Char → Bool
  | [], _ => true
  | _ :: _, [] => false
  | a :: as, b :: bs => a == b && listStarts as bs

/-- Python whitespace (the characters these inputs can contain). -/
def isSpaceC (c : Char) : Bool := c == ' ' || c == '\t' || c == '\n' || c == '\r'

/-- Python `str.strip()`. -/
def pyStrip (s : String) : String :=
  String.mk (((s.data.dropWhile isSpaceC).reverse.dropWhile isSpaceC).reverse)

/-- Splitting on a non-overlapping separator occurrence, left to right
(fuel-indexed; the fuel never runs out at `length + 1`). -/
def splitOnAuxL (sep : List Char) : Nat → List Char → List Char → List (List Char)
  | _, [], acc => [acc.reverse]
  | 0, rest, acc => [acc.reverse ++ rest]
  | fuel + 1, c :: cs, acc =>
    if sep ≠ [] && listStarts sep (c :: cs) then
      acc.reverse :: splitOnAuxL sep fuel ((c :: cs).drop sep.length) []
    else splitOnAuxL sep fuel cs (c :: acc)

/-- Python `s.split(sep)` for a non-empty separator. -/
def pySplit (s sep : String) : List String :=
  (splitOnAuxL sep.data (s.data.length + 1) s.data []).map String.mk

/-! ## `timezone_utils.py` -/

/-- The `TIMEZONE_ALIASES` table of `timezone_utils.py`. -/
def TIMEZONE_ALIASES : List (String × String) :=
  [("мск", "Europe/Moscow"), ("msk", "Europe/Moscow"), ("москва", "Europe/Moscow"),
   ("moscow", "Europe/Moscow"), ("спб", "Europe/Moscow"), ("питер", "Europe/Moscow"),
   ("дубай", "Asia/Dubai"), ("dubai", "Asia/Dubai"), ("dubay", "Asia/Dubai"),
   ("dxb", "Asia/Dubai"), ("uae", "Asia/Dubai"), ("оаэ", "Asia/Dubai"),
   ("алматы", "Asia/Almaty"), ("almaty", "Asia/Almaty"), ("астана", "Asia/Almaty"),
   ("astana", "Asia/Almaty"),
   ("utc", "UTC"), ("gmt", "UTC"), ("лондон", "Europe/London"), ("london", "Europe/London"),
   ("нью-йорк", "America/New_York"), ("new_york", "America/New_York"),
   ("ny", "America/New_York"), ("токио", "Asia/Tokyo"), ("tokyo", "Asia/Tokyo")]

/-- Association-list lookup (Python `dict` membership plus indexing). -/
def lookupTable (table : List (String × String)) (k : String) : Option String :=
  (table.find? (fun p => p.1 == k)).map (fun p => p.2)

/-- Embeds `normalize_timezone` from `timezone_utils.py`: alias table first, then a
validity probe via `pytz.timezone`, defaulting to `"UTC"` when unknown. -/
def normalize_timezone (tz_input : String) : String :=
  let tz_lower := pyStrip (pyLower tz_input)
  match lookupTable TIMEZONE_ALIASES tz_lower with
  | some t => t
  | none =>
    match pytzTimezone tz_input with
    | some _ => tz_input
    | none => "UTC"

/-- Embeds `get_current_date_for_user` from `timezone_utils.py`.  The current UTC
instant is an explicit argument (`datetime.now(tz)` made explicit); `none`
models the `UnknownTimeZoneError` raised by `pytz.timezone`. -/
def get_current_date_for_user (timezone : String) (day_end_hour : Nat) (nowUtc : Int) :
    Option String :=
  match pytzTimezone timezone with
  | none => none
  | some off =>
    let now := nowUtc + off
    if hourOf now < day_end_hour then
      some (formatDate (dayOf (now - 1440)))
    else
      some (formatDate (dayOf now))

/-- Embeds `get_relative_date` from `timezone_utils.py`. -/
def get_relative_date (relative_to timezone : String) (day_end_hour : Nat) (nowUtc : Int) :
    Option String :=
  match pytzTimezone timezone with
  | none => none
  | some off =>
    let now := nowUtc + off
    let logical_today := if hourOf now < day_end_hour then now - 1440 else now
    if relative_to == "today" then some (formatDate (dayOf logical_today))
    else if relative_to == "yesterday" then some (formatDate (dayOf (logical_today - 1440)))
    else if relative_to == "tomorrow" then some (formatDate (dayOf (logical_today + 1440)))
    else some (formatDate (dayOf logical_today))

/-- Digits of a character list interpreted in decimal. -/
def strToNat (cs : List Char) : Nat := cs.foldl (fun acc c => acc * 10 + (c.toNat - 48)) 0

/-- All characters are decimal digits. -/
def allDigits (cs : List Char) : Bool := cs.all (fun c => 48 ≤ c.toNat && c.toNat ≤ 57)

/-- Gregorian leap-year rule. -/
def isLeap (y : Int) : Bool := y % 4 == 0 && (y % 100 != 0 || y % 400 == 0)

/-- Length of a month. -/
def daysInMonth (y m : Int) : Int :=
  if m = 2 then (if isLeap y then 29 else 28)
  else if m = 4 ∨ m = 6 ∨ m = 9 ∨ m = 11 then 30
  else 31

/-- Embeds `datetime.strptime(s, '%Y-%m-%d')` reduced to the day number of the parsed
date; `none` models the `ValueError` raised on malformed input. -/
def strptimeDate (s : String) : Option Int :=
  match (pySplit s "-").map String.data with
  | [ys, ms, ds] =>
    if allDigits ys ∧ allDigits ms ∧ allDigits ds ∧
        ys ≠ [] ∧ ys.length ≤ 4 ∧ ms ≠ [] ∧ ms.length ≤ 2 ∧ ds ≠ [] ∧ ds.length ≤ 2 then
      let y : Int := strToNat ys
      let m : Int := strToNat ms
      let d : Int := strToNat ds
      if 1 ≤ m ∧ m ≤ 12 ∧ 1 ≤ d ∧ d ≤ daysInMonth y m then
        some (daysFromCivil y m d)
      else none
    else none
  | _ => none

/-- Embeds `get_day_start_end` from `timezone_utils.py`: the UTC instants bounding a
logical day.  `date.replace(hour=h)` raises for `h ≥ 24`, and the `timedelta`
subtraction happens after `tz.localize`, so in this DST-free model the start
is exactly 24 local hours before the end. -/
def get_day_start_end (date_str timezone : String) (day_end_hour : Nat) :
    Option (Int × Int) :=
  match pytzTimezone timezone with
  | none => none
  | some off =>
    match strptimeDate date_str with
    | none => none
    | some day =>
      if day_end_hour ≥ 24 then none
      else
        let end_local := day * 1440 + (day_end_hour : Int) * 60
        let start_local := end_local - 1440
        some (start_local - off, end_local - off)

/-! ## Handler-side use of the calculator (`handlers.py`, `database.py`) -/

/-- The date string `_show_today` (`handlers.py`) passes to
`get_daily_summary`: `datetime.now().strftime('%Y-%m-%d')` on the server's
wall clock, which is an explicit argument here. -/
def show_today_date (nowServer : Int) : String := formatDate (dayOf nowServer)

/-- The UTC range behind `_show_today`'s summary query: `get_daily_summary`
is called without timezone arguments, so its defaults `timezone='UTC'` and
`day_end_hour=4` reach `get_day_start_end`. -/
def show_today_query_range (nowServer : Int) : Option (Int × Int) :=
  get_day_start_end (show_today_date nowServer) "UTC" 4

/-- A stored `entries` row (the fields the daily-summary query reads). -/
structure EntryRow where
  user_id : Int
  timestamp : Int
  total_calories : Rat

/-- The row set `get_daily_summary` (`database.py`) aggregates: the user's
rows with `start ≤ timestamp < end`, the range coming from
`get_day_start_end`. -/
def get_daily_summary_rows (rows : List EntryRow) (uid : Int) (date_str timezone : String)
    (day_end_hour : Nat) : Option (List EntryRow) :=
  (get_day_start_end date_str timezone day_end_hour).map
    (fun se => rows.filter
      (fun r => r.user_id == uid && decide (se.1 ≤ r.timestamp) && decide (r.timestamp < se.2)))

/-! ## JSON (the `json` library fragment exchanged with the model backend) -/

/-- JSON values of the fragment this system exchanges: objects, arrays,
strings with the standard short escapes, integers, booleans, null. -/
inductive Json where
  | null : Json
  | bool (b : Bool) : Json
  | num (n : Int) : Json
  | str (s : String) : Json
  | arr (xs : List Json) : Json
  | obj (fields : List (String × Json)) : Json

/-- The character `LEFT CURLY BRACKET`. -/
def lbraceC : Char := Char.ofNat 123

/-- The character `RIGHT CURLY BRACKET`. -/
def rbraceC : Char := Char.ofNat 125

/-- The character `QUOTATION MARK`. -/
def dquoteC : Char := Char.ofNat 34

/-- The character `REVERSE SOLIDUS`. -/
def bslashC : Char := Char.ofNat 92

/-- JSON whitespace. -/
def isWsC (c : Char) : Bool := c == ' ' || c == '\n' || c == '\t' || c == '\r'

/-- Drop leading JSON whitespace. -/
def skipWs : List Char → List Char
  | [] => []
  | c :: cs => if isWsC c then skipWs cs else c :: cs

/-- Decimal digit test. -/
def isDigitC (c : Char) : Bool := 48 ≤ c.toNat && c.toNat ≤ 57

/-- Split off the leading run of decimal digits. -/
def takeDigits : List Char → List Char × List Char
  | [] => ([], [])
  | c :: cs =>
    if isDigitC c then
      let p := takeDigits cs
      (c :: p.1, p.2)
    else ([], c :: cs)

/-- Body of a JSON string after the opening quote, with the standard
two-character escapes; `none` models a `json.JSONDecodeError`. -/
def parseStringBody : Nat → List Char → List Char → Option (String × List Char)
  | 0, _, _ => none
  | _ + 1, _, [] => none
  | fuel + 1, acc, c :: cs =>
    if c == dquoteC then some (String.mk acc.reverse, cs)
    else if c == bslashC then
      match cs with
      | [] => none
      | e :: cs' =>
        if e == dquoteC then parseStringBody fuel (dquoteC :: acc) cs'
        else if e == bslashC then parseStringBody fuel (bslashC :: acc) cs'
        else if e == '/' then parseStringBody fuel ('/' :: acc) cs'
        else if e == 'n' then parseStringBody fuel ('\n' :: acc) cs'
        else if e == 't' then parseStringBody fuel ('\t' :: acc) cs'
        else if e == 'r' then parseStringBody fuel ('\r' :: acc) cs'
        else none
    else parseStringBody fuel (c :: acc) cs

/-- Match a literal character sequence, returning the rest. -/
def dropLit : List Char → List Char → Option (List Char)
  | [], rest => some rest
  | _ :: _, [] => none
  | l :: ls, c :: cs => if c == l then dropLit ls cs else none

mutual

/-- Recursive-descent JSON value parser (fuel-indexed). -/
def parseJson : Nat → List Char → Option (Json × List Char)
  | 0, _ => none
  | fuel + 1, input =>
    match skipWs input with
    | [] => none
    | c :: cs =>
      if c == dquoteC then
        (parseStringBody (cs.length + 1) [] cs).map (fun p => (Json.str p.1, p.2))
      else if c == lbraceC then parseObj fuel true [] cs
      else if c == '[' then parseArr fuel true [] cs
      else if c == 't' then (dropLit ['r', 'u', 'e'] cs).map (fun r => (Json.bool true, r))
      else if c == 'f' then (dropLit ['a', 'l', 's', 'e'] cs).map (fun r => (Json.bool false, r))
      else if c == 'n' then (dropLit ['u', 'l', 'l'] cs).map (fun r => (Json.null, r))
      else if c == '-' then
        match takeDigits cs with
        | ([], _) => none
        | (ds, rest) =>
          match rest with
          | r :: _ => if r == '.' || r == 'e' || r == 'E' then none
                      else some (Json.num (-(strToNat ds : Int)), rest)
          | [] => some (Json.num (-(strToNat ds : Int)), [])
      else if isDigitC c then
        match takeDigits (c :: cs) with
        | (ds, rest) =>
          match rest with
          | r :: _ => if r == '.' || r == 'e' || r == 'E' then none
                      else some (Json.num (strToNat ds : Int), rest)
          | [] => some (Json.num (strToNat ds : Int), [])
      else none

/-- Object fields after the opening brace. -/
def parseObj : Nat → Bool → List (String × Json) → List Char → Option (Json × List Char)
  | 0, _, _, _ => none
  | fuel + 1, isFirst, acc, input =>
    match skipWs input with
    | [] => none
    | c :: cs =>
      if c == rbraceC then some (Json.obj acc.reverse, cs)
      else
        match if isFirst then c :: cs else (if c == ',' then skipWs cs else []) with
        | [] => none
        | k :: ks =>
          if k == dquoteC then
            match parseStringBody (ks.length + 1) [] ks with
            | none => none
            | some (key, rest) =>
              match skipWs rest with
              | [] => none
              | colon :: rest2 =>
                if colon == ':' then
                  match parseJson fuel rest2 with
                  | none => none
                  | some (v, rest3) => parseObj fuel false ((key, v) :: acc) rest3
                else none
          else none

/-- Array elements after the opening bracket. -/
def parseArr : Nat → Bool → List Json → List Char → Option (Json × List Char)
  | 0, _, _, _ => none
  | fuel + 1, isFirst, acc, input =>
    match skipWs input with
    | [] => none
    | c :: cs =>
      if c == ']' then some (Json.arr acc.reverse, cs)
      else
        match parseJson fuel (if isFirst then c :: cs else (if c == ',' then cs else [])) with
        | none => none
        | some (v, rest) => parseArr fuel false (v :: acc) rest

end

/-- Embeds `json.loads`: parse a complete JSON document; `none` models the
`JSONDecodeError` raised on invalid input. -/
def json_loads (s : String) : Option Json :=
  match parseJson (s.length + 1) s.data with
  | some (v, rest) => if (skipWs rest).isEmpty then some v else none
  | none => none

/-- Python `dict[k]` access on a parsed JSON value (`none` = `KeyError`, or a
`TypeError`/`AttributeError` on a non-object). -/
def jsonGet : Json → String → Option Json
  | Json.obj fields, k => (fields.find? (fun p => p.1 == k)).map (fun p => p.2)
  | _, _ => none

/-! ## `ai_service.py`: conversation memory -/

/-- One entry of `_conversation_memory`: `role`, `content`, the
server-generated `timestamp`, plus the metadata merged by
`entry.update(extra)` (a Python value that may be `None`). -/
structure MemoryEntry where
  role : String
  content : String
  timestamp : String
  extra : List (String × Option Json)

/-- The `self._conversation_memory` dict: per-user-id entry list (a missing
key reads as the empty list, matching the lazy initialization). -/
def Memory := Int → List MemoryEntry

/-- Memory of a fresh `NutritionAIService`. -/
def emptyMemory : Memory := fun _ => []

/-- Embeds `self._max_memory_size`. -/
def maxMemorySize : Nat := 10

/-- Embeds `_add_to_memory` from `ai_service.py`: append the entry, then trim the
user's list to its last `_max_memory_size` elements. -/
def _add_to_memory (mem : Memory) (user_id : Int) (role content timestamp : String)
    (extra : List (String × Option Json)) : Memory :=
  fun u =>
    if u = user_id then
      let entries := mem user_id ++ [⟨role, content, timestamp, extra⟩]
      if entries.length > maxMemorySize then
        entries.drop (entries.length - maxMemorySize)
      else entries
    else mem u

/-- Embeds `add_bot_response_to_memory` from `ai_service.py`. -/
def add_bot_response_to_memory (mem : Memory) (user_id : Int) (response timestamp : String)
    (extra : List (String × Option Json)) : Memory :=
  _add_to_memory mem user_id "bot" response timestamp extra

/-! ## `ai_service.py`: intent detection -/

/-- Outcome of the `requests` POST to the model backend: `exn` models any
raised exception (timeout, transport error, `raise_for_status`); `ok body` a
2xx reply with the given body text. -/
inductive ModelOutcome where
  | exn : ModelOutcome
  | ok (body : String) : ModelOutcome

/-- Embeds `_extract_json` from `ai_service.py`: strip a Markdown code fence. -/
def extract_json (content : String) : String :=
  let content := pyStrip content
  let partsJ := pySplit content "```json"
  if partsJ.length > 1 then
    pyStrip ((pySplit (partsJ.get! 1) "```").get! 0)
  else
    let parts := pySplit content "```"
    if parts.length > 1 then pyStrip ((pySplit (parts.get! 1) "```").get! 0)
    else content

/-- Embeds `result["choices"][0]["message"]["content"]` as a string; `none` models
the `KeyError`/`IndexError`/`TypeError` raised on any other shape. -/
def extractChoicesContent (j : Json) : Option String :=
  match jsonGet j "choices" with
  | some (Json.arr (c0 :: _)) =>
    match jsonGet c0 "message" with
    | some msg =>
      match jsonGet msg "content" with
      | some (Json.str content) => some content
      | _ => none
    | none => none
  | _ => none

/-- The fail-open fallback intent of `detect_intent`. -/
def fallbackIntent (text : String) : Json :=
  Json.obj [("action", Json.str "add_food"), ("food_description", Json.str text)]

/-- What `detect_intent` extracts from a backend outcome before its memory
write: body → `response.json()` → `choices[0].message.content` →
`_extract_json` → `json.loads`; `none` = some step of the `try` block raised. -/
def intentOfOutcome : ModelOutcome → Option Json
  | ModelOutcome.exn => none
  | ModelOutcome.ok body =>
    match json_loads body with
    | none => none
    | some j =>
      match extractChoicesContent j with
      | none => none
      | some content => json_loads (extract_json content)

/-- Embeds `detect_intent` from `ai_service.py`, state-passing: returns the updated
conversation memory and the intent value.  Any exception inside the `try`
block yields the fallback with the memory untouched; the user turn is
recorded only after successful parsing, and only for a truthy `user_id`
(`if user_id:`).  A non-object intent makes `intent.get("action")` raise,
which the same `except` turns into the fallback. -/
def detect_intent (mem : Memory) (text : String) (user_id : Option Int)
    (outcome : ModelOutcome) (now : String) : Memory × Json :=
  match intentOfOutcome outcome with
  | none => (mem, fallbackIntent text)
  | some intent =>
    match user_id with
    | some uid =>
      if uid ≠ 0 then
        match intent with
        | Json.obj fields =>
          (_add_to_memory mem uid "user" text now
            [("intent", jsonGet (Json.obj fields) "action")], Json.obj fields)
        | _ => (mem, fallbackIntent text)
      else (mem, intent)
    | none => (mem, intent)

/-! ## `ai_service.py`: custom-food matching and analysis -/

/-- A `custom_foods` row (`database.py`): the numeric macros are SQLite
`REAL` values, modelled as rationals; `name` and `aliases` are stored
lowercased by `save_custom_food`. -/
structure CustomFood where
  id : Int
  user_id : Int
  name : String
  aliases : String
  grams : Int
  calories : Rat
  protein : Rat
  fat : Rat
  carbs : Rat

/-- The `NutritionItem` dataclass (`ai_service.py`). -/
structure NutritionItem where
  name : String
  grams : Int
  calories : Int
  protein : Rat
  fat : Rat
  carbs : Rat
deriving DecidableEq

/-- Python `int()` on a real value: truncation toward zero. -/
def pyInt (q : Rat) : Int := if 0 ≤ q then ⌊q⌋ else ⌈q⌉

/-- Round-half-to-even on a rational, Python's rounding rule. -/
def pyRoundHalfEven (q : Rat) : Int :=
  let f := ⌊q⌋
  let r := q - f
  if r < 1 / 2 then f
  else if 1 / 2 < r then f + 1
  else if f % 2 = 0 then f else f + 1

/-- Python `round(x, 1)` (exact-rational model of the float operation). -/
def pyRound1 (q : Rat) : Rat := (pyRoundHalfEven (q * 10) : Rat) / 10

/-- Decimal rendering of an integer. -/
def intToStr (n : Int) : String := if n < 0 then "-" ++ natToStr (-n).toNat else natToStr n.toNat

/-- Occurrence of `needle` as a contiguous run of `hay`. -/
def strOccurs (needle : List Char) : List Char → Bool
  | [] => needle.isEmpty
  | c :: cs => listStarts needle (c :: cs) || strOccurs needle cs

/-- Python `needle in hay` on strings. -/
def strHas (hay needle : String) : Bool := strOccurs needle.data hay.data

/-- Match of `\s*` followed by the literal `name` at the head of `s`. -/
def wsStarMatch (name : List Char) : List Char → Bool
  | [] => listStarts name []
  | c :: cs => listStarts name (c :: cs) || (isSpaceC c && wsStarMatch name cs)

/-- Greedy-with-backtracking digit capture of `(\d+)\s*name`: `revCap` is the
reversed digit run captured so far; shrink it from the right until `\s*name`
matches the remaining text. -/
def quantBacktrack (name : List Char) : List Char → List Char → Option Nat
  | [], _ => none
  | d :: revCap, rest =>
    if wsStarMatch name rest then some (strToNat (d :: revCap).reverse)
    else quantBacktrack name revCap (d :: rest)

/-- Embeds `re.search(r'(\d+)\s*' + re.escape(name), text)`: leftmost match first;
at each digit position the capture is greedy with backtracking. -/
def searchQuantity (name : String) : List Char → Option Nat
  | [] => none
  | c :: cs =>
    if isDigitC c then
      let p := takeDigits (c :: cs)
      match quantBacktrack name.data p.1.reverse p.2 with
      | some q => some q
      | none => searchQuantity name cs
    else searchQuantity name cs

/-- The item `_check_custom_foods` appends for a matched food. -/
def scaledItem (food : CustomFood) (multiplier : Nat) : NutritionItem :=
  { name := food.name ++ " (" ++ intToStr food.grams ++ "г × " ++ natToStr multiplier ++ ")",
    grams := food.grams * (multiplier : Int),
    calories := pyInt (food.calories * (multiplier : Rat)),
    protein := pyRound1 (food.protein * (multiplier : Rat)),
    fat := pyRound1 (food.fat * (multiplier : Rat)),
    carbs := pyRound1 (food.carbs * (multiplier : Rat)) }

/-- Embeds `[a.strip() for a in food.aliases.split(',') if a.strip()]`. -/
def parseAliases (aliases : String) : List String :=
  ((pySplit aliases ",").map pyStrip).filter (fun a => a ≠ "")

/-- One iteration of the `_check_custom_foods` loop: the item emitted for
this food, if its name (else its first listed matching alias) occurs in the
lowercased utterance. -/
def matchFood (text_lower : String) (food : CustomFood) : Option NutritionItem :=
  if strHas text_lower food.name then
    some (scaledItem food ((searchQuantity food.name text_lower.data).getD 1))
  else
    match (parseAliases food.aliases).find? (fun a => strHas text_lower a) with
    | some al => some (scaledItem food ((searchQuantity al text_lower.data).getD 1))
    | none => none

/-- Embeds `_check_custom_foods` from `ai_service.py`; the repository read
`get_custom_foods(user_id)` is the explicit `custom_foods` argument. -/
def _check_custom_foods (text : String) (custom_foods : List CustomFood) : List NutritionItem :=
  if custom_foods.isEmpty then []
  else custom_foods.filterMap (matchFood (pyLower text))

/-- The `NutritionAnalysis` dataclass (`ai_service.py`). -/
structure NutritionAnalysis where
  items : List NutritionItem
  total_calories : Rat
  total_protein : Rat
  total_fat : Rat
  total_carbs : Rat
  notes : Option String
  error : Option String

/-- An all-zero analysis carrying only an error, as the `except` arms build. -/
def emptyAnalysis (err : Option String) : NutritionAnalysis :=
  { items := [], total_calories := 0, total_protein := 0, total_fat := 0,
    total_carbs := 0, notes := none, error := err }

/-- Rational reading of a JSON number field (the replies this system
exchanges are numeric in these positions). -/
def jsonNum : Json → Rat
  | Json.num n => (n : Rat)
  | _ => 0

/-- Integer reading of a JSON number field. -/
def jsonNumInt : Json → Int
  | Json.num n => n
  | _ => 0

/-- String reading of a JSON field with a default. -/
def jsonStrOr (d : String) : Json → String
  | Json.str s => s
  | _ => d

/-- Embeds `dict.get(k, dflt)`. -/
def jsonGetD (j : Json) (k : String) (dflt : Json) : Json := (jsonGet j k).getD dflt

/-- Embeds `NutritionAnalysis.from_dict` (`ai_service.py`), on the numeric reply
shapes this system exchanges. -/
def from_dict (data : Json) : NutritionAnalysis :=
  match data with
  | Json.obj _ =>
    let items :=
      (match jsonGet data "items" with
       | some (Json.arr xs) => xs
       | _ => []).map (fun it =>
        ({ name := jsonStrOr "Unknown" (jsonGetD it "name" (Json.str "Unknown")),
           grams := jsonNumInt (jsonGetD it "grams" (Json.num 0)),
           calories := jsonNumInt (jsonGetD it "calories" (Json.num 0)),
           protein := jsonNum (jsonGetD it "protein" (Json.num 0)),
           fat := jsonNum (jsonGetD it "fat" (Json.num 0)),
           carbs := jsonNum (jsonGetD it "carbs" (Json.num 0)) } : NutritionItem))
    let total := jsonGetD data "total" (Json.obj [])
    { items := items,
      total_calories := jsonNum (jsonGetD total "calories" (Json.num 0)),
      total_protein := jsonNum (jsonGetD total "protein" (Json.num 0)),
      total_fat := jsonNum (jsonGetD total "fat" (Json.num 0)),
      total_carbs := jsonNum (jsonGetD total "carbs" (Json.num 0)),
      notes := (jsonGet data "notes").bind (fun v => match v with
        | Json.str s => some s
        | _ => none),
      error := (jsonGet data "error").bind (fun v => match v with
        | Json.str s => some s
        | _ => none) }
  | _ => emptyAnalysis (some "Invalid response format: expected dict")

/-- The model-backend branch of `analyze`: POST, extract the content string,
strip fences, apply the `'"items"'`-prefix fixup, parse, build the analysis;
each `except` arm yields its error analysis, and an unparsable content
string yields the single-placeholder-item analysis. -/
def analyzeModelPath (text : String) (outcome : ModelOutcome) : NutritionAnalysis :=
  match outcome with
  | ModelOutcome.exn => emptyAnalysis (some "API error")
  | ModelOutcome.ok body =>
    match json_loads body with
    | none => emptyAnalysis (some "Failed to parse nutrition data")
    | some j =>
      match extractChoicesContent j with
      | none => emptyAnalysis (some "Error: unexpected response shape")
      | some content =>
        let c := pyStrip (extract_json content)
        let quoted := String.mk [dquoteC] ++ "items" ++ String.mk [dquoteC]
        let c := if listStarts quoted.data c.data then
            String.mk [lbraceC] ++ quoted ++ ":" ++ String.mk (c.data.drop 7)
          else c
        match json_loads c with
        | none =>
          { items := [{ name := String.mk (text.data.take 50), grams := 0, calories := 0,
                        protein := 0, fat := 0, carbs := 0 }],
            total_calories := 0, total_protein := 0, total_fat := 0, total_carbs := 0,
            notes := none, error := some "JSON parse error" }
        | some data => from_dict data

/-- Embeds `analyze` from `ai_service.py`: custom-food precedence, then the model
path.  The repository read and the backend outcome are explicit arguments;
`repo`/`user_id` follow Python truthiness (`if repo and user_id:`). -/
def analyze (text : String) (repo : Option (List CustomFood)) (user_id : Option Int)
    (outcome : ModelOutcome) : NutritionAnalysis :=
  let custom_items :=
    match repo, user_id with
    | some foods, some uid => if uid ≠ 0 then _check_custom_foods text foods else []
    | _, _ => []
  if custom_items.isEmpty then analyzeModelPath text outcome
  else
    { items := custom_items,
      total_calories := ((custom_items.map (fun i => i.calories)).sum : Int),
      total_protein := (custom_items.map (fun i => i.protein)).sum,
      total_fat := (custom_items.map (fun i => i.fat)).sum,
      total_carbs := (custom_items.map (fun i => i.carbs)).sum,
      notes := some "Из сохранённых продуктов ✓",
      error := none }

/-! ## `handlers.py`: edit resolution (`_edit_food_voice`) -/

/-- The `field_mapping` table of `_edit_food_voice`. -/
def field_mapping : List (String × String) :=
  [("калории", "calories"), ("калорий", "calories"), ("ккал", "calories"),
   ("белки", "protein"), ("белок", "protein"),
   ("жиры", "fat"), ("жир", "fat"),
   ("углеводы", "carbs"), ("углевод", "carbs"),
   ("граммы", "grams"), ("грамм", "grams"), ("вес", "grams"),
   ("название", "name"), ("имя", "name"),
   ("псевдонимы", "aliases"), ("алиасы", "aliases")]

/-- The `valid_fields` list of `_edit_food_voice`. -/
def valid_fields : List String :=
  ["calories", "protein", "fat", "carbs", "grams", "name", "aliases"]

/-- Embeds `field_mapping.get(field.lower(), field.lower())`. -/
def resolveField (field : String) : String :=
  (lookupTable field_mapping (pyLower field)).getD (pyLower field)

/-- First match of `\d+(?:\.\d+)?` in `s` (`re.findall(...)[0]` then
`float`), as a rational. -/
def findFirstDecimal : List Char → Option Rat
  | [] => none
  | c :: cs =>
    if isDigitC c then
      let p := takeDigits (c :: cs)
      match p.2 with
      | '.' :: r2 =>
        match takeDigits r2 with
        | ([], _) => some ((strToNat p.1 : Int) : Rat)
        | (fs, _) => some (((strToNat p.1 : Int) : Rat) + ((strToNat fs : Int) : Rat) / ((10 : Rat) ^ fs.length))
      | _ => some ((strToNat p.1 : Int) : Rat)
    else findFirstDecimal cs

/-- First match of `\d+` in `s` (`re.findall(...)[0]` then `int`). -/
def findFirstInt : List Char → Option Int
  | [] => none
  | c :: cs =>
    if isDigitC c then some ((strToNat (takeDigits (c :: cs)).1 : Int))
    else findFirstInt cs

/-- Embeds `find_custom_food` (`database.py`): the first row whose name or alias
string contains the lowercased query (`LIKE '%q%'`). -/
def find_custom_food (foods : List CustomFood) (query : String) : Option CustomFood :=
  foods.find? (fun f => strHas f.name (pyLower query) || strHas f.aliases (pyLower query))

/-- A value parsed by `_edit_food_voice` (`float`, `int`, or stripped
string, by field type). -/
inductive ParsedVal where
  | floatVal (q : Rat) : ParsedVal
  | intVal (n : Int) : ParsedVal
  | strVal (s : String) : ParsedVal

/-- Outcome of `_edit_food_voice` (`handlers.py`): which reply path ran and,
on success, the single `update_custom_food` mutation performed.  Every
non-`updated` outcome performs no mutation. -/
inductive EditResult where
  | missingParams : EditResult
  | foodNotFound (food_name : String) : EditResult
  | unknownField (field : String) : EditResult
  | unparsableValue (value : String) : EditResult
  | updated (food_id : Int) (field_en : String) (value : ParsedVal) : EditResult

/-- Embeds `_edit_food_voice` from `handlers.py`, up to the `update_custom_food`
call; reply formatting after the update is not modelled. -/
def _edit_food_voice (foods : List CustomFood) (food_name field value : String) : EditResult :=
  if food_name = "" || field = "" || value = "" then EditResult.missingParams
  else
    match find_custom_food foods food_name with
    | none => EditResult.foodNotFound food_name
    | some food =>
      let field_en := resolveField field
      if !(valid_fields.contains field_en) then EditResult.unknownField field
      else if ["calories", "protein", "fat", "carbs"].contains field_en then
        match findFirstDecimal value.data with
        | some q => EditResult.updated food.id field_en (ParsedVal.floatVal q)
        | none => EditResult.unparsableValue value
      else if field_en = "grams" then
        match findFirstInt value.data with
        | some n => EditResult.updated food.id field_en (ParsedVal.intVal n)
        | none => EditResult.unparsableValue value
      else EditResult.updated food.id field_en (ParsedVal.strVal (pyStrip value))

/-- Does an `_edit_food_voice` outcome reach the `update_custom_food`
mutation? -/
def editMutates : EditResult → Bool
  | EditResult.updated _ _ _ => true
  | _ => false

/-! ## Spec-side reference definitions and concrete instances -/

/-- Modelled from the spec: "local time `h:00` on a calendar day, converted
to UTC" — the boundary instant the spec describes, stated from its words as
the refinement reference for the day-boundary claims. -/
def specLocalHourToUtc (off day : Int) (h : Nat) : Int :=
  day * 1440 + (h : Int) * 60 - off

/-- The trigger — the canonical name, else the first listed matching alias —
through which `_check_custom_foods` matches a food in the lowercased text. -/
def matchTrigger (text_lower : String) (food : CustomFood) : Option String :=
  if strHas text_lower food.name then some food.name
  else (parseAliases food.aliases).find? (fun a => strHas text_lower a)

/-- Iterated `_add_to_memory` for one user: a sequence of recorded turns. -/
def appendTurns (mem : Memory) (uid : Int) : List MemoryEntry → Memory
  | [] => mem
  | e :: ts => appendTurns (_add_to_memory mem uid e.role e.content e.timestamp e.extra) uid ts

/-- The last `maxMemorySize` elements of a list. -/
def lastCap (l : List MemoryEntry) : List MemoryEntry := l.drop (l.length - maxMemorySize)

/-- The банан food of the spec's Custom-Food Matcher scenario. -/
def bananFood : CustomFood :=
  { id := 1, user_id := 7, name := "банан", aliases := "", grams := 120,
    calories := 105, protein := (13 : Rat) / 10, fat := (4 : Rat) / 10, carbs := 27 }

/-- A saved food with the non-integral calorie value `105.9` per serving
(the `calories` column is SQLite `REAL`). -/
def truncFood : CustomFood :=
  { id := 2, user_id := 7, name := "тест", aliases := "", grams := 100,
    calories := (1059 : Rat) / 10, protein := 0, fat := 0, carbs := 0 }

/-- A saved овсянка food, target of the edit-resolution scenario. -/
def oatFood : CustomFood :=
  { id := 3, user_id := 7, name := "овсянка", aliases := "", grams := 50,
    calories := 180, protein := 6, fat := 3, carbs := 30 }

/-- Twelve concrete conversation turns. -/
def twelveTurns : List MemoryEntry :=
  (List.range 12).map (fun i => { role := "user", content := natToStr i, timestamp := "", extra := [] })

/-- A stored entry at 2024-05-31 09:00 UTC (12:00 Moscow time). -/
def mayEntry : EntryRow := { user_id := 1, timestamp := 28619100, total_calories := 500 }

/-- A well-formed backend reply body whose content field carries an intent
JSON document. -/
def goodBody : String :=
  "\x7b\"choices\": [\x7b\"message\": \x7b\"content\": \"\x7b\\\"action\\\": \\\"show_summary\\\", \\\"date\\\": \\\"today\\\"\x7d\"\x7d\x7d]\x7d"

/-- The intent document carried by `goodBody`. -/
def goodIntentFields : List (String × Json) :=
  [("action", Json.str "show_summary"), ("date", Json.str "today")]

/-! ## Supporting lemmas -/

/-- Subtracting `timedelta(days=1)` moves the calendar day number down by
exactly one. -/
theorem dayOf_sub_1440 (t : Int) : dayOf (t - 1440) = dayOf t - 1 := by
  unfold dayOf
  have h : t - 1440 = t + (-1) * 1440 := by ring
  rw [h, Int.add_mul_ediv_right _ _ (by norm_num : (1440 : Int) ≠ 0)]
  omega

/-- Every target of the user-friendly alias table is a zone the modelled
database knows. -/
theorem alias_targets_valid :
    TIMEZONE_ALIASES.all (fun p => (pytzTimezone p.2).isSome) = true := rfl

/-! ## C1: logical today -/

/-- C1: for every modelled IANA timezone and every `dayEndHour` in 0–23, the
logical-today computation (`get_current_date_for_user`, and the
logical-today step of `get_relative_date`) returns the previous calendar
date in that zone when the current local hour is strictly less than
`dayEndHour`, and the current calendar date when the local hour is at or
above `dayEndHour`. -/
theorem C1_logical_today (tz : String) (off : Int) (h : Nat) (nowUtc : Int)
    (hzone : pytzTimezone tz = some off) (_hh : h ≤ 23) :
    get_current_date_for_user tz h nowUtc =
      some (if hourOf (nowUtc + off) < (h : Int) then formatDate (dayOf (nowUtc + off) - 1)
            else formatDate (dayOf (nowUtc + off))) ∧
    get_relative_date "today" tz h nowUtc =
      some (if hourOf (nowUtc + off) < (h : Int) then formatDate (dayOf (nowUtc + off) - 1)
            else formatDate (dayOf (nowUtc + off))) := by
  constructor
  · by_cases hc : hourOf (nowUtc + off) < (h : Int)
    · simp [get_current_date_for_user, hzone, hc, dayOf_sub_1440]
    · simp [get_current_date_for_user, hzone, hc]
  · by_cases hc : hourOf (nowUtc + off) < (h : Int)
    · simp [get_relative_date, hzone, hc, dayOf_sub_1440]
    · simp [get_relative_date, hzone, hc]

/-- Witness for C1 at the spec's Moscow scenario: local 03:30 on 2024-06-02
(UTC minute 28621470) yields logical date 2024-06-01, local 04:05 (UTC
minute 28621505) yields 2024-06-02. -/
theorem C1_logical_today_witness :
    get_current_date_for_user "Europe/Moscow" 4 28621470 = some "2024-06-01" ∧
    get_current_date_for_user "Europe/Moscow" 4 28621505 = some "2024-06-02" ∧
    get_relative_date "today" "Europe/Moscow" 4 28621470 = some "2024-06-01" := by
  have h1 := C1_logical_today "Europe/Moscow" 180 4 28621470 rfl (by norm_num)
  have h2 := C1_logical_today "Europe/Moscow" 180 4 28621505 rfl (by norm_num)
  refine ⟨?_, ?_, ?_⟩
  · rw [h1.1]; rfl
  · rw [h2.1]; rfl
  · rw [h1.2]; rfl

/-! ## C2: UTC day boundaries -/

/-- C2: for every parseable `YYYY-MM-DD` date string, modelled timezone and
`dayEndHour` in 0–23 (DST ignored by construction), `get_day_start_end`
returns the UTC pair whose end is local `h:00` on day `D` converted to UTC,
whose start is local `h:00` on the previous calendar day converted to UTC,
and whose difference is exactly 24 hours. -/
theorem C2_day_start_end (date_str tz : String) (off day : Int) (h : Nat)
    (hzone : pytzTimezone tz = some off) (hdate : strptimeDate date_str = some day)
    (hh : h ≤ 23) :
    get_day_start_end date_str tz h =
      some (specLocalHourToUtc off (day - 1) h, specLocalHourToUtc off day h) ∧
    specLocalHourToUtc off day h - specLocalHourToUtc off (day - 1) h = 1440 := by
  constructor
  · have h24 : ¬ h ≥ 24 := by omega
    simp only [get_day_start_end, hzone, hdate, h24, if_false, specLocalHourToUtc,
      Option.some.injEq, Prod.mk.injEq]
    exact ⟨by ring, by ring⟩
  · unfold specLocalHourToUtc
    ring

/-- Witness for C2 at the Moscow scenario date 2024-06-02 with
`dayEndHour = 4`. -/
theorem C2_day_start_end_witness :
    get_day_start_end "2024-06-02" "Europe/Moscow" 4 = some (28620060, 28621500) ∧
    (28621500 : Int) - 28620060 = 1440 := by
  have h := C2_day_start_end "2024-06-02" "Europe/Moscow" 180 19876 4 rfl rfl (by norm_num)
  constructor
  · rw [h.1]; rfl
  · norm_num

/-! ## C4: unknown timezone handling -/

/-- C4 as stated is false: the day-boundary calculators applied directly to
an unknown zone identifier raise (`none`) instead of returning the `UTC`
result. -/
theorem C4_counterexample :
    get_current_date_for_user "Mars/Olympus" 4 28621470 = none ∧
    get_day_start_end "2024-06-02" "Mars/Olympus" 4 = none ∧
    get_current_date_for_user "UTC" 4 28621470 = some "2024-06-01" ∧
    get_day_start_end "2024-06-02" "UTC" 4 = some (28620240, 28621680) :=
  ⟨rfl, rfl, rfl, rfl⟩

/-- C4 amended: only `normalize_timezone` resolves an unknown identifier
(silently, to `'UTC'` or an alias target the zone database knows);
`get_current_date_for_user` and `get_day_start_end` applied directly to an
unknown identifier raise `UnknownTimeZoneError` (return no result). -/
theorem C4_amended (tz date_str : String) (h : Nat) (nowUtc : Int)
    (hunk : pytzTimezone tz = none) :
    get_current_date_for_user tz h nowUtc = none ∧
    get_day_start_end date_str tz h = none ∧
    (pytzTimezone (normalize_timezone tz)).isSome = true := by
  refine ⟨?_, ?_, ?_⟩
  · unfold get_current_date_for_user
    rw [hunk]
  · unfold get_day_start_end
    rw [hunk]
  · simp only [normalize_timezone]
    cases hl : lookupTable TIMEZONE_ALIASES (pyStrip (pyLower tz)) with
    | none =>
      simp only [hl, hunk]
      rfl
    | some t =>
      simp only [hl]
      have hmem : ∃ p ∈ TIMEZONE_ALIASES, p.2 = t := by
        unfold lookupTable at hl
        rcases Option.map_eq_some'.mp hl with ⟨p, hp, hpt⟩
        exact ⟨p, List.mem_of_find?_eq_some hp, hpt⟩
      rcases hmem with ⟨p, hpmem, hpt⟩
      have hv := List.all_eq_true.mp alias_targets_valid p hpmem
      rw [← hpt]
      exact hv

/-- Witness for the amended C4 at the unknown identifier `Mars/Olympus`. -/
theorem C4_amended_witness :
    get_current_date_for_user "Mars/Olympus" 5 123 = none ∧
    get_day_start_end "2024-01-01" "Mars/Olympus" 5 = none ∧
    (pytzTimezone (normalize_timezone "Mars/Olympus")).isSome = true :=
  C4_amended "Mars/Olympus" "2024-01-01" 5 123 rfl

/-! ## Conversation-memory lemmas -/

/-- The entry just recorded by `_add_to_memory` is the last element of the
user's list (trimming only evicts from the front). -/
theorem addToMemory_getLast (mem : Memory) (uid : Int) (r c t : String)
    (e : List (String × Option Json)) :
    ((_add_to_memory mem uid r c t e) uid).getLast? = some ⟨r, c, t, e⟩ := by
  unfold _add_to_memory
  rw [if_pos rfl]
  set l := mem uid with hl
  set x : MemoryEntry := ⟨r, c, t, e⟩ with hx
  by_cases hlen : (l ++ [x]).length > maxMemorySize
  · rw [if_pos hlen]
    have hk : (l ++ [x]).length - maxMemorySize ≤ l.length := by
      simp only [List.length_append, List.length_singleton, maxMemorySize] at hlen ⊢
      omega
    rw [List.drop_append_eq_append_drop, Nat.sub_eq_zero_of_le hk, List.drop_zero]
    exact List.getLast?_concat _
  · rw [if_neg hlen]
    exact List.getLast?_concat _

/-- One `_add_to_memory` step preserves the "last `maxMemorySize` of all
turns ever recorded" shape of a user's list. -/
theorem lastCap_step (prev : List MemoryEntry) (mem : Memory) (uid : Int) (e : MemoryEntry)
    (hmem : mem uid = lastCap prev) :
    (_add_to_memory mem uid e.role e.content e.timestamp e.extra) uid = lastCap (prev ++ [e]) := by
  unfold _add_to_memory
  rw [if_pos rfl, hmem]
  have hx : (⟨e.role, e.content, e.timestamp, e.extra⟩ : MemoryEntry) = e := rfl
  rw [hx]
  unfold lastCap maxMemorySize
  set n := prev.length with hn
  have hcaplen : (prev.drop (n - 10)).length = n - (n - 10) := List.length_drop _ _
  by_cases h10 : n ≥ 10
  · have hlen : (prev.drop (n - 10) ++ [e]).length > 10 := by
      simp only [List.length_append, List.length_singleton, hcaplen]
      omega
    rw [if_pos hlen]
    have h1 : (prev.drop (n - 10) ++ [e]).length - 10 = 1 := by
      simp only [List.length_append, List.length_singleton, hcaplen]
      omega
    rw [h1]
    have h2 : (1 : Nat) ≤ (prev.drop (n - 10)).length := by omega
    rw [List.drop_append_eq_append_drop, Nat.sub_eq_zero_of_le h2, List.drop_zero,
      List.drop_drop, List.drop_append_eq_append_drop]
    have h3 : (prev ++ [e]).length - 10 ≤ n := by
      simp only [List.length_append, List.length_singleton]
      omega
    rw [Nat.sub_eq_zero_of_le h3, List.drop_zero]
    have h4 : n - 10 + 1 = (prev ++ [e]).length - 10 := by
      simp only [List.length_append, List.length_singleton]
      omega
    rw [h4]
  · have hlen : ¬ (prev.drop (n - 10) ++ [e]).length > 10 := by
      simp only [List.length_append, List.length_singleton, hcaplen]
      omega
    rw [if_neg hlen]
    have h0 : n - 10 = 0 := by omega
    have h0' : (prev ++ [e]).length - 10 = 0 := by
      simp only [List.length_append, List.length_singleton]
      omega
    rw [h0, h0', List.drop_zero, List.drop_zero]

/-- Iterating `_add_to_memory` keeps exactly the last `maxMemorySize` of all
turns recorded so far. -/
theorem appendTurns_lastCap (ts : List MemoryEntry) :
    ∀ (mem : Memory) (uid : Int) (prev : List MemoryEntry),
      mem uid = lastCap prev → (appendTurns mem uid ts) uid = lastCap (prev ++ ts) := by
  induction ts with
  | nil =>
    intro mem uid prev h
    simpa [appendTurns] using h
  | cons e ts ih =>
    intro mem uid prev h
    have h2 := lastCap_step prev mem uid e h
    have h3 := ih _ uid (prev ++ [e]) h2
    simpa [appendTurns, List.append_assoc] using h3

/-! ## C5: classifier fail-open -/

/-- C5: whenever the backend outcome fails to produce a parsed intent
(transport error, timeout, non-JSON or malformed content), `detect_intent`
returns — rather than raises — the fallback intent with action `add_food`
and `food_description` equal to the utterance verbatim. -/
theorem C5_fail_open (mem : Memory) (text ts : String) (user_id : Option Int)
    (outcome : ModelOutcome) (hfail : intentOfOutcome outcome = none) :
    (detect_intent mem text user_id outcome ts).2 = fallbackIntent text ∧
    fallbackIntent text =
      Json.obj [("action", Json.str "add_food"), ("food_description", Json.str text)] := by
  constructor
  · simp only [detect_intent, hfail]
  · rfl

/-- Witness for C5 at a transport error and at a non-JSON reply body. -/
theorem C5_fail_open_witness :
    (detect_intent emptyMemory "сколько я съел" (some 9) ModelOutcome.exn "t1").2 =
      fallbackIntent "сколько я съел" ∧
    (detect_intent emptyMemory "сколько я съел" (some 9)
        (ModelOutcome.ok "Извини, не понял") "t2").2 =
      fallbackIntent "сколько я съел" :=
  ⟨(C5_fail_open emptyMemory "сколько я съел" "t1" (some 9) ModelOutcome.exn rfl).1,
   (C5_fail_open emptyMemory "сколько я съел" "t2" (some 9)
      (ModelOutcome.ok "Извини, не понял") rfl).1⟩

/-! ## C6: memory cap -/

/-- C6: for every user and every sequence of appends, the stored per-user
sequence never exceeds 10 turns, and after more than 10 appends exactly the
10 most recently appended turns remain, in their original oldest-first
order. -/
theorem C6_memory_cap (uid : Int) (turns : List MemoryEntry) :
    ((appendTurns emptyMemory uid turns) uid).length ≤ 10 ∧
    (turns.length > 10 →
      (appendTurns emptyMemory uid turns) uid = turns.drop (turns.length - 10)) := by
  have h := appendTurns_lastCap turns emptyMemory uid [] rfl
  rw [List.nil_append] at h
  constructor
  · rw [h]
    unfold lastCap
    rw [List.length_drop]
    unfold maxMemorySize
    omega
  · intro _
    rw [h]
    rfl

/-- Witness for C6: after 12 appends, exactly the last 10 remain in order. -/
theorem C6_memory_cap_witness :
    ((appendTurns emptyMemory 7 twelveTurns) 7).length ≤ 10 ∧
    (appendTurns emptyMemory 7 twelveTurns) 7 = twelveTurns.drop 2 := by
  have h := C6_memory_cap 7 twelveTurns
  exact ⟨h.1, h.2 (by decide)⟩

/-! ## C7: what reaches conversation memory -/

/-- C7 as stated is false: when classification fails and the fallback intent
is returned, no user turn is appended — the memory write sits inside the
`try` block after parsing, so the failure path leaves memory empty. -/
theorem C7_counterexample :
    (detect_intent emptyMemory "привет бот" (some 5) ModelOutcome.exn "ts1").1 5 = [] ∧
    (detect_intent emptyMemory "привет бот" (some 5) ModelOutcome.exn "ts1").2 =
      fallbackIntent "привет бот" :=
  ⟨rfl, rfl⟩

/-- C7 amended: the user turn (content = the utterance) is appended only
when classification succeeds with an object intent and the user id is
truthy; on failure the memory is untouched and the fallback is returned;
each bot reply recorded through `add_bot_response_to_memory` is appended as
a bot turn. -/
theorem C7_memory_recording (mem : Memory) (text ts : String) (uid : Int)
    (outcome : ModelOutcome) (extra : List (String × Option Json)) :
    (∀ fields, intentOfOutcome outcome = some (Json.obj fields) → uid ≠ 0 →
      ((detect_intent mem text (some uid) outcome ts).1 uid).getLast? =
        some ⟨"user", text, ts, [("intent", jsonGet (Json.obj fields) "action")]⟩) ∧
    (intentOfOutcome outcome = none →
      (detect_intent mem text (some uid) outcome ts).1 = mem ∧
      (detect_intent mem text (some uid) outcome ts).2 = fallbackIntent text) ∧
    ((add_bot_response_to_memory mem uid text ts extra) uid).getLast? =
      some ⟨"bot", text, ts, extra⟩ := by
  refine ⟨?_, ?_, ?_⟩
  · intro fields hok huid
    simp only [detect_intent, hok]
    rw [if_pos huid]
    exact addToMemory_getLast mem uid "user" text ts _
  · intro hfail
    constructor
    · simp only [detect_intent, hfail]
    · simp only [detect_intent, hfail]
  · exact addToMemory_getLast mem uid "bot" text ts extra

/-- Witness for the amended C7: a successful classification appends the user
turn, and a bot reply appends a bot turn. -/
theorem C7_memory_recording_witness :
    ((detect_intent emptyMemory "итоги" (some 5) (ModelOutcome.ok goodBody) "ts2").1 5).getLast? =
      some ⟨"user", "итоги", "ts2", [("intent", some (Json.str "show_summary"))]⟩ ∧
    ((add_bot_response_to_memory emptyMemory 5 "ответ" "ts3" []) 5).getLast? =
      some ⟨"bot", "ответ", "ts3", []⟩ := by
  constructor
  · exact (C7_memory_recording emptyMemory "итоги" "ts2" 5 (ModelOutcome.ok goodBody) []).1
      goodIntentFields rfl (by decide)
  · exact (C7_memory_recording emptyMemory "ответ" "ts3" 5 ModelOutcome.exn []).2.2

/-! ## C3: daily-summary scoping -/

/-- C3 describes the intended behaviour, but the code does not implement it:
`_show_today` passes the server-local calendar date and lets
`get_daily_summary` default to UTC and hour 4, ignoring the user's stored
settings.  At server time 2024-06-02 06:00 UTC (instant 28621800) with user
settings `Europe/Moscow`, `day_end_hour = 10`, the user's logical today is
2024-06-01 with UTC range 28618980–28620420, while the code queries the
server date 2024-06-02 with range 28620240–28621680; the entry `mayEntry`
(2024-05-31 12:00 Moscow time) belongs to the user-correct window but is
absent from the window the code queries. -/
theorem C3_show_today_divergence :
    show_today_date 28621800 = "2024-06-02" ∧
    get_current_date_for_user "Europe/Moscow" 10 28621800 = some "2024-06-01" ∧
    show_today_query_range 28621800 = some (28620240, 28621680) ∧
    get_day_start_end "2024-06-01" "Europe/Moscow" 10 = some (28618980, 28620420) ∧
    get_daily_summary_rows [mayEntry] 1 (show_today_date 28621800) "UTC" 4 = some [] ∧
    get_daily_summary_rows [mayEntry] 1 "2024-06-01" "Europe/Moscow" 10 = some [mayEntry] :=
  ⟨rfl, rfl, rfl, rfl, rfl, rfl⟩

/-! ## C8: custom-food scaling -/

/-- C8 as stated is false in its rounding clause: the matcher computes
`int(food.calories * multiplier)` — truncation toward zero, not rounding.
For the saved food `truncFood` with `calories = 105.9` (a legal `REAL`
value) and multiplier 1, the emitted item carries 105 although rounding to
an integer gives 106. -/
theorem C8_counterexample :
    _check_custom_foods "тест" [truncFood] = [scaledItem truncFood 1] ∧
    (scaledItem truncFood 1).grams = 100 ∧
    (scaledItem truncFood 1).calories = 105 ∧
    pyRoundHalfEven (truncFood.calories * ((1 : Nat) : Rat)) = 106 := by
  refine ⟨rfl, rfl, ?_, ?_⟩
  · show pyInt (truncFood.calories * ((1 : Nat) : Rat)) = 105
    norm_num [truncFood, pyInt]
  · norm_num [truncFood, pyRoundHalfEven]

/-- C8 amended: for every saved food matched through its name (else its
first matching alias) in the lowercased utterance, the matcher emits an
item scaled by the integer multiplier captured by the quantity pattern (1
when no digits precede the trigger): grams multiplied, calories multiplied
and truncated toward zero to an integer, and protein, fat and carbs
multiplied and rounded to one decimal place. -/
theorem C8_scaled_match (foods : List CustomFood) (text : String) (food : CustomFood)
    (tr : String) (hmem : food ∈ foods)
    (htr : matchTrigger (pyLower text) food = some tr) :
    (strHas (pyLower text) food.name = true → tr = food.name) ∧
    ∃ item ∈ _check_custom_foods text foods,
      item.grams = food.grams * (((searchQuantity tr (pyLower text).data).getD 1 : Nat) : Int) ∧
      item.calories =
        pyInt (food.calories * (((searchQuantity tr (pyLower text).data).getD 1 : Nat) : Rat)) ∧
      item.protein =
        pyRound1 (food.protein * (((searchQuantity tr (pyLower text).data).getD 1 : Nat) : Rat)) ∧
      item.fat =
        pyRound1 (food.fat * (((searchQuantity tr (pyLower text).data).getD 1 : Nat) : Rat)) ∧
      item.carbs =
        pyRound1 (food.carbs * (((searchQuantity tr (pyLower text).data).getD 1 : Nat) : Rat)) := by
  have hne : foods.isEmpty = false := by
    cases foods with
    | nil => cases hmem
    | cons a l => rfl
  constructor
  · intro hname
    simp only [matchTrigger, hname, if_true] at htr
    exact (Option.some_inj.mp htr).symm
  · have hmf : matchFood (pyLower text) food =
        some (scaledItem food ((searchQuantity tr (pyLower text).data).getD 1)) := by
      by_cases hname : strHas (pyLower text) food.name = true
      · simp only [matchTrigger, hname, if_true] at htr
        cases htr
        simp only [matchFood, hname, if_true]
      · simp only [matchTrigger, hname, Bool.false_eq_true, if_false] at htr
        simp only [matchFood, hname, Bool.false_eq_true, if_false, htr]
    refine ⟨scaledItem food ((searchQuantity tr (pyLower text).data).getD 1), ?_,
      rfl, rfl, rfl, rfl, rfl⟩
    simp only [_check_custom_foods, hne, Bool.false_eq_true, if_false]
    exact List.mem_filterMap.mpr ⟨food, hmem, hmf⟩

/-- Witness for the amended C8 at the spec's scenario: банан (120 g, 105
kcal per serving) in «съел 2 банана» yields exactly one item with 240 g and
210 kcal. -/
theorem C8_scaled_match_witness :
    ((strHas (pyLower "съел 2 банана") bananFood.name = true → "банан" = bananFood.name) ∧
     ∃ item ∈ _check_custom_foods "съел 2 банана" [bananFood],
       item.grams = bananFood.grams *
         (((searchQuantity "банан" (pyLower "съел 2 банана").data).getD 1 : Nat) : Int) ∧
       item.calories = pyInt (bananFood.calories *
         (((searchQuantity "банан" (pyLower "съел 2 банана").data).getD 1 : Nat) : Rat)) ∧
       item.protein = pyRound1 (bananFood.protein *
         (((searchQuantity "банан" (pyLower "съел 2 банана").data).getD 1 : Nat) : Rat)) ∧
       item.fat = pyRound1 (bananFood.fat *
         (((searchQuantity "банан" (pyLower "съел 2 банана").data).getD 1 : Nat) : Rat)) ∧
       item.carbs = pyRound1 (bananFood.carbs *
         (((searchQuantity "банан" (pyLower "съел 2 банана").data).getD 1 : Nat) : Rat))) ∧
    _check_custom_foods "съел 2 банана" [bananFood] = [scaledItem bananFood 2] ∧
    (scaledItem bananFood 2).grams = 240 ∧
    (scaledItem bananFood 2).calories = 210 := by
  refine ⟨C8_scaled_match [bananFood] "съел 2 банана" bananFood "банан" ?_ ?_, rfl, rfl, ?_⟩
  · exact List.mem_singleton.mpr rfl
  · rfl
  · show pyInt (bananFood.calories * ((2 : Nat) : Rat)) = 210
    norm_num [bananFood, pyInt]

/-! ## C9: saved data beats estimation -/

/-- C9: whenever the custom-food matcher yields at least one item, the
analysis is computed solely from the saved foods — its totals are the sums
of the matched items' macros, its provenance note is the saved-data note —
and it is independent of the model backend: two runs differing only in the
backend outcome produce identical analyses. -/
theorem C9_custom_precedence (text : String) (foods : List CustomFood) (uid : Int)
    (o1 o2 : ModelOutcome) (huid : uid ≠ 0)
    (hmatch : _check_custom_foods text foods ≠ []) :
    analyze text (some foods) (some uid) o1 = analyze text (some foods) (some uid) o2 ∧
    (analyze text (some foods) (some uid) o1).items = _check_custom_foods text foods ∧
    (analyze text (some foods) (some uid) o1).total_calories =
      ((((_check_custom_foods text foods).map (fun i => i.calories)).sum : Int) : Rat) ∧
    (analyze text (some foods) (some uid) o1).total_protein =
      ((_check_custom_foods text foods).map (fun i => i.protein)).sum ∧
    (analyze text (some foods) (some uid) o1).total_fat =
      ((_check_custom_foods text foods).map (fun i => i.fat)).sum ∧
    (analyze text (some foods) (some uid) o1).total_carbs =
      ((_check_custom_foods text foods).map (fun i => i.carbs)).sum ∧
    (analyze text (some foods) (some uid) o1).notes = some "Из сохранённых продуктов ✓" ∧
    (analyze text (some foods) (some uid) o1).error = none := by
  have hie : (_check_custom_foods text foods).isEmpty = false := by
    cases hcc : _check_custom_foods text foods with
    | nil => exact absurd hcc hmatch
    | cons a l => rfl
  have key : ∀ o : ModelOutcome, analyze text (some foods) (some uid) o =
      { items := _check_custom_foods text foods,
        total_calories := ((((_check_custom_foods text foods).map (fun i => i.calories)).sum : Int) : Rat),
        total_protein := ((_check_custom_foods text foods).map (fun i => i.protein)).sum,
        total_fat := ((_check_custom_foods text foods).map (fun i => i.fat)).sum,
        total_carbs := ((_check_custom_foods text foods).map (fun i => i.carbs)).sum,
        notes := some "Из сохранённых продуктов ✓",
        error := none } := by
    intro o
    simp only [analyze]
    rw [if_pos huid]
    simp only [hie, Bool.false_eq_true, if_false]
  refine ⟨(key o1).trans (key o2).symm, ?_, ?_, ?_, ?_, ?_, ?_, ?_⟩ <;> rw [key o1]

/-- Witness for C9: with банан saved, «съел 2 банана» yields the same
saved-data analysis under a transport error and under a garbage reply. -/
theorem C9_custom_precedence_witness :
    analyze "съел 2 банана" (some [bananFood]) (some 7) ModelOutcome.exn =
      analyze "съел 2 банана" (some [bananFood]) (some 7) (ModelOutcome.ok "мусор") ∧
    (analyze "съел 2 банана" (some [bananFood]) (some 7) ModelOutcome.exn).notes =
      some "Из сохранённых продуктов ✓" := by
  have h := C9_custom_precedence "съел 2 банана" [bananFood] 7 ModelOutcome.exn
    (ModelOutcome.ok "мусор") (by decide) (by decide)
  exact ⟨h.1, h.2.2.2.2.2.2.1⟩

/-! ## C10: edit resolution -/

/-- C10: the edit resolver normalizes the localized field hint through the
fixed alias table to a canonical field and parses the value by field type —
`калории`/`160 ккал` resolves to `calories` with value `160.0`; an
unmappable hint such as `хрен` fails with the unknown-field error; on an
unknown field, and on an unparsable value for a numeric field, no
`update_custom_food` mutation occurs. -/
theorem C10_edit_resolution (foods : List CustomFood) (fn f v : String) :
    resolveField "калории" = "calories" ∧
    findFirstDecimal ("160 ккал").data = some 160 ∧
    _edit_food_voice [oatFood] "овсянка" "калории" "160 ккал" =
      EditResult.updated 3 "calories" (ParsedVal.floatVal 160) ∧
    (fn ≠ "" → f ≠ "" → v ≠ "" →
      (∃ food, find_custom_food foods fn = some food) →
      valid_fields.contains (resolveField f) = false →
      _edit_food_voice foods fn f v = EditResult.unknownField f) ∧
    (valid_fields.contains (resolveField f) = false →
      editMutates (_edit_food_voice foods fn f v) = false) ∧
    ((["calories", "protein", "fat", "carbs"] : List String).contains (resolveField f) = true →
      findFirstDecimal v.data = none →
      editMutates (_edit_food_voice foods fn f v) = false) := by
  refine ⟨rfl, rfl, rfl, ?_, ?_, ?_⟩
  · intro h1 h2 h3 hex hinv
    obtain ⟨food, hfind⟩ := hex
    simp only [_edit_food_voice]
    split
    · rename_i hcond
      exfalso
      simp [h1, h2, h3] at hcond
    · split
      · rename_i hnone
        rw [hfind] at hnone
        cases hnone
      · rw [if_pos (show (!valid_fields.contains (resolveField f)) = true by rw [hinv]; rfl)]
  · intro hinv
    simp only [_edit_food_voice]
    split
    · rfl
    · split
      · rfl
      · rw [if_pos (show (!valid_fields.contains (resolveField f)) = true by rw [hinv]; rfl)]
        rfl
  · intro hnum hparse
    have hval : valid_fields.contains (resolveField f) = true := by
      have hmem : resolveField f = "calories" ∨ resolveField f = "protein" ∨
          resolveField f = "fat" ∨ resolveField f = "carbs" := by
        simpa using hnum
      rcases hmem with h | h | h | h <;> rw [h] <;> rfl
    simp only [_edit_food_voice]
    split
    · rfl
    · split
      · rfl
      · rw [if_neg (show ¬ (!valid_fields.contains (resolveField f)) = true by
          rw [hval]
          simp)]
        simp [hnum, hparse, editMutates]

/-- Witness for C10: `хрен` is rejected as an unknown field with no
mutation, and an unparsable numeric value also mutates nothing. -/
theorem C10_edit_resolution_witness :
    _edit_food_voice [oatFood] "овсянка" "хрен" "1" = EditResult.unknownField "хрен" ∧
    editMutates (_edit_food_voice [oatFood] "овсянка" "хрен" "1") = false ∧
    editMutates (_edit_food_voice [oatFood] "овсянка" "калории" "много") = false := by
  have h1 := C10_edit_resolution [oatFood] "овсянка" "хрен" "1"
  have h2 := C10_edit_resolution [oatFood] "овсянка" "калории" "много"
  refine ⟨?_, ?_, ?_⟩
  · exact h1.2.2.2.1 (by decide) (by decide) (by decide) ⟨oatFood, rfl⟩ (by decide)
  · exact h1.2.2.2.2.1 (by decide)
  · exact h2.2.2.2.2.2 (by decide) rfl

end NutritionBot
